import Mathlib

/-
  Verification development for bluebox.c (DavidGriffith/bluebox-avr).

  Shallow embedding of the firmware's core algorithms, compiled for the
  KEYPAD_13 configuration (the only keypad layout the source implements:
  the 16-key paths end in #error).  Machine integers are modelled as Nat
  with explicit reductions modulo 2^8 / 2^16 at the points where the C
  code can overflow.  The EEPROM is modelled as a total function
  Nat -> Nat (byte address to byte value); audible output is modelled as
  a trace of events: direct play() calls and process_key() dispatches.
-/

namespace Bluebox

/- ------------------------------------------------------------------ -/
/- Constants, from the #define block of bluebox.c                      -/
/- ------------------------------------------------------------------ -/

def SINE_SAMPLES : Nat := 255
def STEP_SHIFT : Nat := 6

/- SINE_SAMPLES << STEP_SHIFT, the scaled table length used by the
   phase-accumulator wrap test in ISR(TIM0_OVF_vect). -/
def tableLengthScaled : Nat := SINE_SAMPLES <<< STEP_SHIFT

def LONGPRESS_TIME : Nat := 2000

def MODE_EMPTY : Nat := 255
def MODE_MF : Nat := 0
def MODE_DTMF : Nat := 1
def MODE_REDBOX : Nat := 2
def MODE_GREENBOX : Nat := 3
def MODE_PULSE : Nat := 4
def MODE_MAX : Nat := MODE_PULSE
def MODE_MIN : Nat := MODE_MF

def TONE_LENGTH_FAST : Nat := 75
def TONE_LENGTH_SLOW : Nat := 120

def EEPROM_CHUNK_SIZE : Nat := 41
def EEPROM_STARTUP_TONE_MODE : Nat := 1
def EEPROM_STARTUP_TONE_LENGTH : Nat := 2
def EEPROM_MEM1 : Nat := 3
def EEPROM_MEM2 : Nat := EEPROM_MEM1 + EEPROM_CHUNK_SIZE
def EEPROM_MEM3 : Nat := EEPROM_MEM2 + EEPROM_CHUNK_SIZE
def EEPROM_MEM4 : Nat := EEPROM_MEM3 + EEPROM_CHUNK_SIZE
def EEPROM_MEM5 : Nat := EEPROM_MEM4 + EEPROM_CHUNK_SIZE
def EEPROM_MEM6 : Nat := EEPROM_MEM5 + EEPROM_CHUNK_SIZE
def EEPROM_MEM7 : Nat := EEPROM_MEM6 + EEPROM_CHUNK_SIZE
def EEPROM_MEM8 : Nat := EEPROM_MEM7 + EEPROM_CHUNK_SIZE
def EEPROM_MEM9 : Nat := EEPROM_MEM8 + EEPROM_CHUNK_SIZE
def EEPROM_MEM10 : Nat := EEPROM_MEM9 + EEPROM_CHUNK_SIZE
def EEPROM_MEM11 : Nat := EEPROM_MEM10 + EEPROM_CHUNK_SIZE
def EEPROM_MEM12 : Nat := EEPROM_MEM11 + EEPROM_CHUNK_SIZE

def BUFFER_SIZE : Nat := EEPROM_CHUNK_SIZE

/- Key codes for the KEYPAD_13 layout. -/
def KEY_NOTHING : Nat := 0
def KEY_1 : Nat := 1
def KEY_2 : Nat := 2
def KEY_3 : Nat := 3
def KEY_4 : Nat := 4
def KEY_5 : Nat := 5
def KEY_6 : Nat := 6
def KEY_7 : Nat := 7
def KEY_8 : Nat := 8
def KEY_9 : Nat := 9
def KEY_STAR : Nat := 10
def KEY_0 : Nat := 11
def KEY_HASH : Nat := 12
def KEY_SEIZE : Nat := 13

/- ------------------------------------------------------------------ -/
/- Tone-synthesizer phase accumulator, from ISR(TIM0_OVF_vect)         -/
/- (bluebox.c lines 1005-1013).  tone_a_place and tone_a_step are      -/
/- uint16_t, so the += wraps modulo 2^16; the wrap to the table range  -/
/- is a single conditional subtraction of SINE_SAMPLES << STEP_SHIFT.  -/
/- ------------------------------------------------------------------ -/

def oscTick (step place : Nat) : Nat :=
  let p := (place + step) % 65536
  if tableLengthScaled ≤ p then p - tableLengthScaled else p

/- Phase after n carrier ticks with tones enabled, starting from the
   phase 0 that play() establishes (tone_a_place = 0). -/
def oscRun (step n : Nat) : Nat := (oscTick step)^[n] 0

/- ------------------------------------------------------------------ -/
/- Long-press arbiter, from ISR(TIM0_OVF_vect) lines 1026-1033 and     -/
/- process_longpress lines 737-738.                                    -/
/- ------------------------------------------------------------------ -/

structure LpState where
  longpress_counter : Nat
  longpress_flag : Nat
  longpress_on : Bool
deriving DecidableEq

/- One millisecond tick of the ISR, restricted to the long-press block
   (the code guarded by millisec_counter reaching 0).  The C sequence is:
   longpress_counter-- (uint16_t); longpress_flag = 0;
   if (longpress_counter == 0) \x7b counter = LONGPRESS_TIME; flag = 1; \x7d
   and the whole block runs only while longpress_on is set. -/
def lpMsTick (s : LpState) : LpState :=
  if s.longpress_on then
    let c := (s.longpress_counter + 65535) % 65536
    if c = 0 then
      ⟨LONGPRESS_TIME, 1, s.longpress_on⟩
    else
      ⟨c, 0, s.longpress_on⟩
  else s

/- Arming, from process_longpress entry:
   longpress_counter = LONGPRESS_TIME; longpress_on = TRUE;
   (the flag is not touched). -/
def lpArm (s : LpState) : LpState :=
  ⟨LONGPRESS_TIME, s.longpress_flag, true⟩

/- ------------------------------------------------------------------ -/
/- Audible output trace.  A direct play(duration, freq_a, freq_b) call -/
/- is a tone event; a process_key(key, pause) call is a dispatch event -/
/- (process_key never writes tone_mode or the EEPROM, it only plays    -/
/- tones through the mode/key table, so this granularity is faithful   -/
/- for the store/playback claims).                                     -/
/- ------------------------------------------------------------------ -/

inductive Event where
  | tone (duration freq_a freq_b : Nat)
  | dispatch (mode key : Nat) (pause : Bool)
deriving DecidableEq

/- ------------------------------------------------------------------ -/
/- EEPROM model: a total byte-address to byte-value map, with the      -/
/- block operations eeprom_update_block / eeprom_read_block.           -/
/- ------------------------------------------------------------------ -/

def eeprom_update_block (ee : Nat → Nat) (buf : List Nat) (addr : Nat) :
    Nat → Nat :=
  fun a => if addr ≤ a ∧ a < addr + buf.length then buf.getD (a - addr) 0 else ee a

def eeprom_read_block (ee : Nat → Nat) (addr len : Nat) : List Nat :=
  (List.range len).map fun i => ee (addr + i)

/- ------------------------------------------------------------------ -/
/- Ring buffer, from the rbuf_* functions (bluebox.c 1062-1168).       -/
/- The in/out pointers are modelled as indices into the 41-byte array; -/
/- count is a uint8_t, so its increment and decrement wrap mod 256.    -/
/- ------------------------------------------------------------------ -/

structure Rbuf where
  buffer : Nat → Nat
  inPos : Nat
  outPos : Nat
  count : Nat

/- rbuf_init: in = out = start of the array, count = 0; the array
   contents are left as they are. -/
def rbuf_init (r : Rbuf) : Rbuf :=
  ⟨r.buffer, 0, 0, 0⟩

def rbufEmpty : Rbuf := rbuf_init ⟨fun _ => 0, 0, 0, 0⟩

def rbuf_getcount (r : Rbuf) : Nat := r.count

def rbuf_isempty (r : Rbuf) : Bool := rbuf_getcount r == 0

/- rbuf_insert: store at in, advance in with wrap at BUFFER_SIZE,
   count++ (unchecked, uint8_t). -/
def rbuf_insert (r : Rbuf) (data : Nat) : Rbuf :=
  ⟨fun i => if i = r.inPos then data else r.buffer i,
   if r.inPos + 1 = BUFFER_SIZE then 0 else r.inPos + 1,
   r.outPos,
   (r.count + 1) % 256⟩

/- rbuf_remove: fetch at out, advance out with wrap at BUFFER_SIZE,
   count-- (unchecked, uint8_t).  Returns (new state, removed byte). -/
def rbuf_remove (r : Rbuf) : Rbuf × Nat :=
  (⟨r.buffer,
    r.inPos,
    if r.outPos + 1 = BUFFER_SIZE then 0 else r.outPos + 1,
    (r.count + 255) % 256⟩,
   r.buffer r.outPos)

/- Abstraction: the FIFO contents of the buffer, oldest first. -/
def rbufList (r : Rbuf) : List Nat :=
  (List.range r.count).map fun i => r.buffer ((r.outPos + i) % BUFFER_SIZE)

/- Bookkeeping invariant: count within capacity, pointers within the
   array, and the in pointer consistent with out pointer plus count. -/
def rbufInv (r : Rbuf) : Prop :=
  r.count ≤ BUFFER_SIZE ∧ r.inPos < BUFFER_SIZE ∧ r.outPos < BUFFER_SIZE ∧
  r.inPos = (r.outPos + r.count) % BUFFER_SIZE

instance rbufInvDecidable (r : Rbuf) : Decidable (rbufInv r) :=
  inferInstanceAs (Decidable (_ ∧ _ ∧ _ ∧ _))

/- Operation sequences on the ring buffer, for the overflow claim. -/
inductive RbufOp where
  | ins (data : Nat)
  | rem
deriving DecidableEq

def rbufApply (r : Rbuf) : RbufOp → Rbuf
  | RbufOp.ins d => rbuf_insert r d
  | RbufOp.rem => (rbuf_remove r).1

def rbufRun (r : Rbuf) : List RbufOp → Rbuf
  | [] => r
  | op :: rest => rbufRun (rbufApply r op) rest

/- A run is within-capacity when every insert happens while the buffer
   holds fewer than BUFFER_SIZE elements and every remove happens while
   it is nonempty. -/
def rbufLegalRun (r : Rbuf) : List RbufOp → Bool
  | [] => true
  | RbufOp.ins d :: rest =>
      decide (r.count < BUFFER_SIZE) && rbufLegalRun (rbuf_insert r d) rest
  | RbufOp.rem :: rest =>
      decide (0 < r.count) && rbufLegalRun (rbuf_remove r).1 rest

def insCount : List RbufOp → Nat
  | [] => 0
  | RbufOp.ins _ :: rest => insCount rest + 1
  | RbufOp.rem :: rest => insCount rest

def remCount : List RbufOp → Nat
  | [] => 0
  | RbufOp.ins _ :: rest => remCount rest
  | RbufOp.rem :: rest => remCount rest + 1

/- ------------------------------------------------------------------ -/
/- key2chunk (bluebox.c 514-531): memory key to EEPROM chunk address;  -/
/- 0 (NULL) for every key without a chunk.                             -/
/- ------------------------------------------------------------------ -/

def key2chunk (key : Nat) : Nat :=
  if key = KEY_1 then EEPROM_MEM1
  else if key = KEY_2 then EEPROM_MEM2
  else if key = KEY_3 then EEPROM_MEM3
  else if key = KEY_4 then EEPROM_MEM4
  else if key = KEY_5 then EEPROM_MEM5
  else if key = KEY_6 then EEPROM_MEM6
  else if key = KEY_7 then EEPROM_MEM7
  else if key = KEY_8 then EEPROM_MEM8
  else if key = KEY_9 then EEPROM_MEM9
  else if key = KEY_STAR then EEPROM_MEM10
  else if key = KEY_0 then EEPROM_MEM11
  else if key = KEY_HASH then EEPROM_MEM12
  else 0

/- ------------------------------------------------------------------ -/
/- eeprom_store (bluebox.c 442-463).  The loop for i = 1..40 drains    -/
/- the ring buffer into ee_buffer, padding with 0xFF once empty.       -/
/- ------------------------------------------------------------------ -/

def rbuf_drain : Nat → Rbuf → List Nat × Rbuf
  | 0, r => ([], r)
  | n + 1, r =>
      if rbuf_isempty r then
        let p := rbuf_drain n r
        (255 :: p.1, p.2)
      else
        let q := rbuf_remove r
        let p := rbuf_drain n q.1
        (q.2 :: p.1, p.2)

/- ee_buffer as built by eeprom_store: byte 0 is the live tone mode,
   bytes 1..40 are the drained ring-buffer contents padded with 0xFF. -/
def store_chunk (tone_mode : Nat) (r : Rbuf) : List Nat × Rbuf :=
  ((tone_mode :: (rbuf_drain (EEPROM_CHUNK_SIZE - 1) r).1),
   (rbuf_drain (EEPROM_CHUNK_SIZE - 1) r).2)

/- eeprom_store(key): play confirmation, build ee_buffer, write it as
   one block at key2chunk(key), play confirmation.  Returns the drained
   ring buffer, the new EEPROM, and the audible trace. -/
def eeprom_store (tone_mode : Nat) (r : Rbuf) (ee : Nat → Nat) (key : Nat) :
    Rbuf × (Nat → Nat) × List Event :=
  ((store_chunk tone_mode r).2,
   eeprom_update_block ee (store_chunk tone_mode r).1 (key2chunk key),
   [Event.tone 75 1700 1700, Event.tone 1000 1500 1500])

/- ------------------------------------------------------------------ -/
/- eeprom_playback (bluebox.c 475-505).                                -/
/- ------------------------------------------------------------------ -/

/- The playback loop for i = 1..40: process_key(mem[i], TRUE) until a
   0xFF byte or the end of the chunk. -/
def replay_keys (mode : Nat) : List Nat → List Event
  | [] => []
  | k :: rest =>
      if k = 255 then [] else Event.dispatch mode k true :: replay_keys mode rest

/- eeprom_playback(key): error tones and return if key2chunk is NULL;
   silent return if the chunk's first byte is not a valid mode;
   otherwise save tone_mode, set it from the chunk, replay, restore.
   Returns the tone mode after the call, the EEPROM after the call and
   the audible trace. -/
def eeprom_playback (tone_mode : Nat) (ee : Nat → Nat) (key : Nat) :
    Nat × (Nat → Nat) × List Event :=
  let chunk := key2chunk key
  if chunk = 0 then
    (tone_mode, ee, [Event.tone 1000 1500 1500, Event.tone 1000 1500 1500])
  else
    let mem := eeprom_read_block ee chunk EEPROM_CHUNK_SIZE
    if mem.getD 0 0 < MODE_MIN ∨ MODE_MAX < mem.getD 0 0 then
      (tone_mode, ee, [])
    else
      let tone_mode_temp := tone_mode
      (tone_mode_temp, ee, replay_keys (mem.getD 0 0) (mem.drop 1))

/- ------------------------------------------------------------------ -/
/- Boot-time header validation (bluebox.c 350-370).                    -/
/- ------------------------------------------------------------------ -/

/- The four-chirp warning loop: for (key = 0; key < 4; key++)
   \x7b play(75, f, f); sleep_ms(66); \x7d  -/
def chirp4 (freq : Nat) : List Event :=
  [Event.tone 75 freq freq, Event.tone 75 freq freq,
   Event.tone 75 freq freq, Event.tone 75 freq freq]

/- Read the two setup bytes and validate them; returns the resulting
   in-memory tone_mode and tone_length, the EEPROM after the section
   (no write happens in it) and the audible trace. -/
def boot_read_settings (ee : Nat → Nat) :
    Nat × Nat × (Nat → Nat) × List Event :=
  let tone_mode := ee EEPROM_STARTUP_TONE_MODE
  let tone_length := ee EEPROM_STARTUP_TONE_LENGTH
  let p1 :=
    if tone_mode < MODE_MIN ∨ MODE_MAX < tone_mode
    then (MODE_MIN, chirp4 880) else (tone_mode, ([] : List Event))
  let p2 :=
    if tone_length ≠ TONE_LENGTH_SLOW ∧ tone_length ≠ TONE_LENGTH_FAST
    then (TONE_LENGTH_FAST, chirp4 1760) else (tone_length, ([] : List Event))
  (p1.1, p2.1, ee, p1.2 ++ p2.2)

/- ------------------------------------------------------------------ -/
/- Key decoder, getkey (bluebox.c 801-848), KEYPAD_13 layout.          -/
/- ------------------------------------------------------------------ -/

/- Classification of an accepted (twice-identical) 8-bit ADC reading:
   the noise-floor test and the cascade of voltage-band tests, in
   source order; the trailing break returns 0. -/
def getkeyClassify (voltage : Nat) : Nat :=
  if voltage < 13 then KEY_NOTHING
  else if 233 < voltage then KEY_1
  else if 211 < voltage ∧ voltage ≤ 232 then KEY_2
  else if 192 < voltage ∧ voltage ≤ 210 then KEY_3
  else if 174 < voltage ∧ voltage ≤ 191 then KEY_4
  else if 155 < voltage ∧ voltage ≤ 173 then KEY_5
  else if 137 < voltage ∧ voltage ≤ 154 then KEY_6
  else if 119 < voltage ∧ voltage ≤ 136 then KEY_7
  else if 101 < voltage ∧ voltage ≤ 118 then KEY_8
  else if 82 < voltage ∧ voltage ≤ 100 then KEY_9
  else if 64 < voltage ∧ voltage ≤ 81 then KEY_STAR
  else if 46 < voltage ∧ voltage ≤ 63 then KEY_0
  else if 27 < voltage ∧ voltage ≤ 45 then KEY_HASH
  else if 16 < voltage ∧ voltage ≤ 26 then KEY_SEIZE
  else KEY_NOTHING

/- The getkey sampling loop: reads is the stream of ADC samples, i the
   next sample index; a pair of equal consecutive samples is accepted
   and classified, a differing pair is discarded and the loop retries.
   Fuel bounds the number of retries so the function is total. -/
def getkey (reads : Nat → Nat) : Nat → Nat → Option Nat
  | 0, _ => none
  | fuel + 1, i =>
      if reads i = reads (i + 1) then some (getkeyClassify (reads i))
      else getkey reads fuel (i + 2)

/- The 13 voltage bands of getkey as an ordered (lo, hi, key) table;
   a reading v is in band (lo, hi, k) when lo ≤ v ≤ hi.  The top band
   is closed at 255 because the reading is an 8-bit value. -/
def keyBands : List (Nat × Nat × Nat) :=
  [(234, 255, KEY_1), (212, 232, KEY_2), (193, 210, KEY_3),
   (175, 191, KEY_4), (156, 173, KEY_5), (138, 154, KEY_6),
   (120, 136, KEY_7), (102, 118, KEY_8), (83, 100, KEY_9),
   (65, 81, KEY_STAR), (47, 63, KEY_0), (28, 45, KEY_HASH),
   (17, 26, KEY_SEIZE)]

def inBand (v : Nat) (b : Nat × Nat × Nat) : Prop :=
  b.1 ≤ v ∧ v ≤ b.2.1

instance inBandDecidable (v : Nat) (b : Nat × Nat × Nat) :
    Decidable (inBand v b) :=
  inferInstanceAs (Decidable (_ ∧ _))

/- Two bands are disjoint when one ends before the other starts. -/
def bandsDisjoint (b1 b2 : Nat × Nat × Nat) : Prop :=
  b1.2.1 < b2.1 ∨ b2.2.1 < b1.1

instance bandsDisjointDecidable (b1 b2 : Nat × Nat × Nat) :
    Decidable (bandsDisjoint b1 b2) :=
  inferInstanceAs (Decidable (_ ∨ _))

/- A concrete ring buffer holding [1, 2, 3] in FIFO order. -/
def sampleRbuf : Rbuf :=
  rbuf_insert (rbuf_insert (rbuf_insert rbufEmpty 1) 2) 3

/- ------------------------------------------------------------------ -/
/- Theorems                                                            -/
/- ------------------------------------------------------------------ -/

theorem tableLengthScaled_eq : tableLengthScaled = 16320 := by decide

theorem oscTick_lt (step place : Nat) (hstep : step ≤ tableLengthScaled)
    (hplace : place < tableLengthScaled) :
    oscTick step place < tableLengthScaled := by
  have h16 : tableLengthScaled = 16320 := tableLengthScaled_eq
  have hlt : place + step < 65536 := by omega
  simp only [oscTick, Nat.mod_eq_of_lt hlt]
  split <;> omega

/-- C1 (amended): for any oscillator step value up to the scaled table
length SINE_SAMPLES << STEP_SHIFT, starting from phase 0, after any
number of carrier ticks with tones enabled the oscillator phase stays
strictly below the scaled table length (phase is a Nat, so 0 ≤ phase
holds by type). -/
theorem C1_phase_invariant (step : Nat) (hstep : step ≤ tableLengthScaled)
    (n : Nat) : oscRun step n < tableLengthScaled := by
  induction n with
  | zero =>
      simp only [oscRun, Function.iterate_zero, id]
      rw [tableLengthScaled_eq]; omega
  | succ n ih =>
      have h : oscRun step (n + 1) = oscTick step (oscRun step n) := by
        simp only [oscRun, Function.iterate_succ_apply']
      rw [h]
      exact oscTick_lt step (oscRun step n) hstep ih

/-- C1 witness: the invariant at the concrete 2600 Hz step (538) after
three ticks. -/
theorem C1_phase_invariant_witness : oscRun 538 3 < tableLengthScaled :=
  C1_phase_invariant 538 (by decide) 3

/-- C1 counterexample: the claim as stated quantifies over every step
value representable in the uint16_t step register (up to 65535).  The
step 20000 is representable, yet after 5 ticks from phase 0 the phase
is 18400, which is not below the scaled table length 16320: a single
conditional subtraction cannot bring a large step back into range. -/
theorem C1_phase_counterexample :
    20000 ≤ 65535 ∧ ¬ oscRun 20000 5 < tableLengthScaled := by decide

/- One armed tick, written as an if on concrete fields. -/
theorem lpMsTick_on (c f : Nat) :
    lpMsTick ⟨c, f, true⟩ =
      if (c + 65535) % 65536 = 0 then ⟨LONGPRESS_TIME, 1, true⟩
      else ⟨(c + 65535) % 65536, 0, true⟩ := by
  simp [lpMsTick]

/- Trajectory of the long-press arbiter after arming: the counter is
   decremented once per millisecond tick, resets to LONGPRESS_TIME when
   it reaches zero, and the flag is 1 exactly at the ticks where the
   reset happens (and 0 at every other tick, because the ISR writes
   longpress_flag = 0 on each tick before the zero test). -/
theorem lp_run_eq (s0 : LpState) : ∀ n, 1 ≤ n →
    lpMsTick^[n] (lpArm s0) =
      ⟨LONGPRESS_TIME - n % LONGPRESS_TIME,
       if n % LONGPRESS_TIME = 0 then 1 else 0, true⟩ := by
  intro n
  induction n with
  | zero => intro h; omega
  | succ n ih =>
      intro _
      rcases Nat.eq_zero_or_pos n with hn0 | hn1
      · subst hn0
        have harm : lpArm s0 = ⟨LONGPRESS_TIME, s0.longpress_flag, true⟩ := rfl
        rw [Function.iterate_one, harm, lpMsTick_on]
        decide
      · rw [Function.iterate_succ_apply', ih hn1, lpMsTick_on]
        simp only [show LONGPRESS_TIME = 2000 from rfl]
        have hmod : n % 2000 < 2000 := Nat.mod_lt _ (by omega)
        by_cases hz : (2000 - n % 2000 + 65535) % 65536 = 0
        · rw [if_pos hz]
          have hb : (n + 1) % 2000 = 0 := by omega
          rw [hb]
          simp
        · rw [if_neg hz]
          have hb : (n + 1) % 2000 ≠ 0 := by omega
          rw [if_neg hb]
          simp only [LpState.mk.injEq, and_true]
          omega

/-- C8 (amended): while armed, the long-press countdown is decremented
exactly once per millisecond tick; on reaching zero it resets to the
LONGPRESS_TIME threshold and raises a one-shot flag, producing a
repeating flag-raise every LONGPRESS_TIME milliseconds for as long as
the arbiter stays armed.  The flag is one-shot because the interrupt
handler itself clears it on the next millisecond tick; the control loop
only observes it and never clears it. -/
theorem C8_longpress_arbiter (s0 : LpState) (n : Nat) (hn : 1 ≤ n) :
    (lpMsTick^[n] (lpArm s0)).longpress_counter
      = LONGPRESS_TIME - n % LONGPRESS_TIME ∧
    ((lpMsTick^[n] (lpArm s0)).longpress_flag = 1 ↔ n % LONGPRESS_TIME = 0) ∧
    (lpMsTick^[n] (lpArm s0)).longpress_on = true := by
  rw [lp_run_eq s0 n hn]
  refine ⟨rfl, ?_, rfl⟩
  by_cases hz : n % LONGPRESS_TIME = 0
  · simp [hz]
  · simp [hz]

/-- C8 witness: the theorem applied at the first firing tick n = 2000. -/
theorem C8_longpress_arbiter_witness :
    (lpMsTick^[2000] (lpArm ⟨0, 0, false⟩)).longpress_counter
      = LONGPRESS_TIME - 2000 % LONGPRESS_TIME ∧
    ((lpMsTick^[2000] (lpArm ⟨0, 0, false⟩)).longpress_flag = 1
      ↔ 2000 % LONGPRESS_TIME = 0) ∧
    (lpMsTick^[2000] (lpArm ⟨0, 0, false⟩)).longpress_on = true :=
  C8_longpress_arbiter ⟨0, 0, false⟩ 2000 (by decide)

/-- C8 counterexample: the flag raised at millisecond tick 2000 is
already cleared at tick 2001 by the interrupt handler alone — the trace
contains no control-loop action — so the claim that the flag is
consumed (cleared) by the control loop is false: process_longpress only
reads longpress_flag and never writes it. -/
theorem C8_longpress_counterexample :
    (lpMsTick^[LONGPRESS_TIME] (lpArm ⟨0, 0, false⟩)).longpress_flag = 1 ∧
    (lpMsTick^[LONGPRESS_TIME + 1] (lpArm ⟨0, 0, false⟩)).longpress_flag = 0 := by
  have h1 := lp_run_eq ⟨0, 0, false⟩ LONGPRESS_TIME (by decide)
  constructor
  · rw [h1]; decide
  · rw [Function.iterate_succ_apply', h1]
    decide

theorem BUFFER_SIZE_eq : BUFFER_SIZE = 41 := rfl

theorem rbufList_length (r : Rbuf) : (rbufList r).length = r.count := by
  simp [rbufList]

/- Inserting below capacity preserves the bookkeeping invariant and
   increments count by exactly one. -/
theorem rbuf_insert_spec (r : Rbuf) (d : Nat) (hinv : rbufInv r)
    (hc : r.count < BUFFER_SIZE) :
    rbufInv (rbuf_insert r d) ∧ (rbuf_insert r d).count = r.count + 1 := by
  obtain ⟨buf, ip, op, c⟩ := r
  obtain ⟨h1, h2, h3, h4⟩ := hinv
  rw [BUFFER_SIZE_eq] at h1 h2 h3 h4 hc
  simp only [rbuf_insert, rbufInv, BUFFER_SIZE_eq] at *
  refine ⟨⟨by omega, by split <;> omega, by omega, by split <;> omega⟩, by omega⟩

/- Removing from a nonempty buffer preserves the invariant, decrements
   count by one, and pops exactly the oldest element of the FIFO
   abstraction. -/
theorem rbuf_remove_spec (r : Rbuf) (hinv : rbufInv r) (hc : 0 < r.count) :
    rbufInv (rbuf_remove r).1 ∧ (rbuf_remove r).1.count = r.count - 1 ∧
    rbufList r = (rbuf_remove r).2 :: rbufList (rbuf_remove r).1 := by
  obtain ⟨buf, ip, op, c⟩ := r
  obtain ⟨h1, h2, h3, h4⟩ := hinv
  rw [BUFFER_SIZE_eq] at h1 h2 h3 h4
  simp only [rbuf_remove, rbufInv, rbufList, BUFFER_SIZE_eq] at *
  refine ⟨⟨by omega, by omega, by split <;> omega, by split <;> omega⟩, by omega, ?_⟩
  obtain ⟨c', rfl⟩ : ∃ c', c = c' + 1 := ⟨c - 1, by omega⟩
  rw [show (c' + 1 + 255) % 256 = c' from by omega]
  rw [List.range_succ_eq_map, List.map_cons, List.map_map]
  congr 1
  · congr 1
    omega
  · apply List.map_congr_left
    intro a _
    simp only [Function.comp_apply]
    congr 1
    split <;> omega

theorem rbuf_drain_length (n : Nat) : ∀ r, ((rbuf_drain n r).1).length = n := by
  induction n with
  | zero => intro r; rfl
  | succ n ih =>
      intro r
      simp only [rbuf_drain]
      split
      · simp [ih]
      · simp [ih]

/- Draining n ≥ count slots produces the FIFO contents followed by
   0xFF padding: exactly the bytes 1..n of the chunk eeprom_store
   builds. -/
theorem rbuf_drain_spec (n : Nat) : ∀ r : Rbuf, rbufInv r → r.count ≤ n →
    (rbuf_drain n r).1 = rbufList r ++ List.replicate (n - r.count) 255 := by
  induction n with
  | zero =>
      intro r hinv hc
      have hz : r.count = 0 := by omega
      simp [rbuf_drain, rbufList, hz]
  | succ n ih =>
      intro r hinv hc
      by_cases hz : r.count = 0
      · have he : rbuf_isempty r = true := by
          simp [rbuf_isempty, rbuf_getcount, hz]
        have hl : rbufList r = [] := by simp [rbufList, hz]
        simp only [rbuf_drain, he, if_true]
        rw [ih r hinv (by omega)]
        simp [hl, hz, List.replicate_succ]
      · have he : rbuf_isempty r = false := by
          simp [rbuf_isempty, rbuf_getcount, hz]
        obtain ⟨hinv2, hcnt, hlist⟩ := rbuf_remove_spec r hinv (by omega)
        simp only [rbuf_drain, he, Bool.false_eq_true, if_false]
        rw [ih (rbuf_remove r).1 hinv2 (by omega), hlist, hcnt]
        rw [show n - (r.count - 1) = n + 1 - r.count from by omega]
        simp

theorem store_chunk_spec (mode : Nat) (r : Rbuf) (hinv : rbufInv r)
    (hlen : r.count ≤ 40) :
    (store_chunk mode r).1
      = mode :: (rbufList r ++ List.replicate (40 - r.count) 255) := by
  have h40 : EEPROM_CHUNK_SIZE - 1 = 40 := rfl
  simp only [store_chunk, h40]
  rw [rbuf_drain_spec 40 r hinv hlen]

theorem store_chunk_length (mode : Nat) (r : Rbuf) :
    (store_chunk mode r).1.length = EEPROM_CHUNK_SIZE := by
  simp only [store_chunk, List.length_cons, rbuf_drain_length]
  decide

/- Reading back a freshly written block returns the written bytes. -/
theorem eeprom_read_update (ee : Nat → Nat) (buf : List Nat) (addr : Nat) :
    eeprom_read_block (eeprom_update_block ee buf addr) addr buf.length = buf := by
  apply List.ext_getElem
  · simp [eeprom_read_block]
  · intro i h1 h2
    simp only [eeprom_read_block, eeprom_update_block, List.getElem_map,
      List.getElem_range]
    rw [if_pos (by omega)]
    rw [show addr + i - addr = i from by omega]
    exact List.getD_eq_getElem buf 0 h2

/-- C9 (amended): for every sequence of insert and remove operations in
which each insert happens while the buffer holds fewer than BUFFER_SIZE
elements and each remove while it is nonempty, the bookkeeping
invariants are preserved: count never exceeds the capacity, count
changes exactly by inserted-minus-removed, and the in/out pointers stay
consistent with count.  An insert performed on a full buffer breaks the
capacity bound (see the counterexample), so the claim's unconditional
form fails. -/
theorem C9_rbuf_invariants (ops : List RbufOp) : ∀ r : Rbuf, rbufInv r →
    rbufLegalRun r ops = true →
    rbufInv (rbufRun r ops) ∧
    (rbufRun r ops).count + remCount ops = r.count + insCount ops := by
  induction ops with
  | nil => intro r hinv _; exact ⟨hinv, rfl⟩
  | cons op rest ih =>
      intro r hinv hleg
      cases op with
      | ins d =>
          simp only [rbufLegalRun, Bool.and_eq_true, decide_eq_true_eq] at hleg
          obtain ⟨hc, hleg2⟩ := hleg
          obtain ⟨hinv2, hcnt⟩ := rbuf_insert_spec r d hinv hc
          have h := ih (rbuf_insert r d) hinv2 hleg2
          simp only [rbufRun, rbufApply]
          simp only [rbufRun, rbufApply] at h
          refine ⟨h.1, ?_⟩
          have h2 := h.2
          simp only [insCount, remCount]
          omega
      | rem =>
          simp only [rbufLegalRun, Bool.and_eq_true, decide_eq_true_eq] at hleg
          obtain ⟨hc, hleg2⟩ := hleg
          obtain ⟨hinv2, hcnt, _⟩ := rbuf_remove_spec r hinv hc
          have h := ih (rbuf_remove r).1 hinv2 hleg2
          simp only [rbufRun, rbufApply]
          simp only [rbufRun, rbufApply] at h
          refine ⟨h.1, ?_⟩
          have h2 := h.2
          simp only [insCount, remCount]
          omega

/-- C9 witness: the invariants after the legal run insert 5, insert 6,
remove from the freshly initialized buffer. -/
theorem C9_rbuf_invariants_witness :
    rbufInv (rbufRun rbufEmpty [RbufOp.ins 5, RbufOp.ins 6, RbufOp.rem]) ∧
    (rbufRun rbufEmpty [RbufOp.ins 5, RbufOp.ins 6, RbufOp.rem]).count
      + remCount [RbufOp.ins 5, RbufOp.ins 6, RbufOp.rem]
      = rbufEmpty.count + insCount [RbufOp.ins 5, RbufOp.ins 6, RbufOp.rem] :=
  C9_rbuf_invariants [RbufOp.ins 5, RbufOp.ins 6, RbufOp.rem] rbufEmpty
    (by decide) (by decide)

/-- C9 counterexample: rbuf_insert increments count unconditionally, so
inserting BUFFER_SIZE + 1 = 42 elements into the freshly initialized
buffer leaves count = 42, which exceeds the capacity BUFFER_SIZE = 41:
overflow does corrupt the bookkeeping, refuting the claim's
"including inserts performed when the buffer already holds BUFFER_SIZE
elements" form. -/
theorem C9_rbuf_counterexample :
    (rbufRun rbufEmpty (List.replicate (BUFFER_SIZE + 1) (RbufOp.ins 1))).count
      = BUFFER_SIZE + 1 ∧
    ¬ (rbufRun rbufEmpty (List.replicate (BUFFER_SIZE + 1) (RbufOp.ins 1))).count
      ≤ BUFFER_SIZE := by decide

theorem eeprom_read_block_getD (ee : Nat → Nat) (addr len i : Nat)
    (h : i < len) :
    (eeprom_read_block ee addr len).getD i 0 = ee (addr + i) := by
  have hl : i < (eeprom_read_block ee addr len).length := by
    simpa [eeprom_read_block] using h
  rw [List.getD_eq_getElem _ _ hl]
  simp [eeprom_read_block]

/- Replaying a sentinel-free run of keys dispatches each of them in
   order and continues into the rest of the chunk. -/
theorem replay_keys_no_sentinel (mode : Nat) (keys rest : List Nat)
    (h : ∀ k ∈ keys, k ≠ 255) :
    replay_keys mode (keys ++ rest)
      = keys.map (fun k => Event.dispatch mode k true)
        ++ replay_keys mode rest := by
  induction keys with
  | nil => simp
  | cons k ks ih =>
      have hk : k ≠ 255 := h k (List.mem_cons_self k ks)
      simp only [List.cons_append, replay_keys, if_neg hk, List.map_cons]
      rw [show ks.append rest = ks ++ rest from rfl,
        ih fun x hx => h x (List.mem_cons_of_mem k hx)]

/- The 0xFF padding stops the replay loop at once. -/
theorem replay_keys_pad (mode n : Nat) :
    replay_keys mode (List.replicate n 255) = [] := by
  cases n with
  | zero => rfl
  | succ n => simp [List.replicate_succ, replay_keys]

/-- C3: eeprom_store builds a 41-byte chunk whose byte 0 is the current
tone mode and whose remaining 40 bytes are the ring buffer's contents
dequeued in FIFO order, with any shortfall padded with the erase
sentinel 0xFF. -/
theorem C3_store_chunk_layout (mode : Nat) (r : Rbuf) (keys : List Nat)
    (hinv : rbufInv r) (hlist : rbufList r = keys)
    (hlen : keys.length ≤ 40) :
    (store_chunk mode r).1
      = mode :: (keys ++ List.replicate (40 - keys.length) 255) ∧
    (store_chunk mode r).1.length = EEPROM_CHUNK_SIZE := by
  have hc : r.count = keys.length := by rw [← hlist, rbufList_length]
  refine ⟨?_, store_chunk_length mode r⟩
  rw [store_chunk_spec mode r hinv (by omega), hlist, hc]

/-- C3 witness: storing with the ring buffer holding [1, 2, 3] builds
the chunk [mode, 1, 2, 3, 0xFF, ..., 0xFF]. -/
theorem C3_store_chunk_layout_witness :
    (store_chunk 0 sampleRbuf).1
      = 0 :: ([1, 2, 3] ++ List.replicate (40 - [1, 2, 3].length) 255) ∧
    (store_chunk 0 sampleRbuf).1.length = EEPROM_CHUNK_SIZE :=
  C3_store_chunk_layout 0 sampleRbuf [1, 2, 3] (by decide) (by decide)
    (by decide)

/-- C10: for every memory key (1-9, STAR, 0, HASH, i.e. codes 1..12),
eeprom_store writes exactly the 41 bytes of that key's own chunk at the
offset 3 + 41 * (chunk_index - 1) computed by key2chunk; every EEPROM
byte outside that range — the three header bytes and the other eleven
chunks — keeps its previous value. -/
theorem C10_store_frame (key : Nat) (h1 : 1 ≤ key) (h2 : key ≤ 12) :
    key2chunk key = 3 + EEPROM_CHUNK_SIZE * (key - 1) ∧
    ∀ mode r ee a,
      (eeprom_store mode r ee key).2.1 a =
        if key2chunk key ≤ a ∧ a < key2chunk key + EEPROM_CHUNK_SIZE
        then (store_chunk mode r).1.getD (a - key2chunk key) 0
        else ee a := by
  constructor
  · interval_cases key <;> decide
  · intro mode r ee a
    simp only [eeprom_store, eeprom_update_block, store_chunk_length]

/-- C10 witness: storing under key 7 targets offset 249 = 3 + 41 * 6
and leaves the header byte at address 0 unchanged. -/
theorem C10_store_frame_witness :
    key2chunk 7 = 3 + EEPROM_CHUNK_SIZE * (7 - 1) ∧
    (eeprom_store 0 rbufEmpty (fun _ => 9) 7).2.1 0 =
      if key2chunk 7 ≤ 0 ∧ 0 < key2chunk 7 + EEPROM_CHUNK_SIZE
      then (store_chunk 0 rbufEmpty).1.getD (0 - key2chunk 7) 0
      else 9 :=
  ⟨(C10_store_frame 7 (by decide) (by decide)).1,
   (C10_store_frame 7 (by decide) (by decide)).2 0 rbufEmpty (fun _ => 9) 0⟩

/-- C2: storing a sequence of at most 40 valid key codes held in the
ring buffer under a valid tone mode and then playing the same memory
key back replays exactly the same ordered key sequence, each key
dispatched under the stored mode, stopping at the 0xFF terminator or
the chunk boundary. -/
theorem C2_store_playback_roundtrip (keys : List Nat)
    (hlen : keys.length ≤ 40)
    (hvalid : ∀ k ∈ keys, 1 ≤ k ∧ k ≤ 13)
    (mode : Nat) (hmode : mode ≤ MODE_MAX)
    (key : Nat) (hkey1 : 1 ≤ key) (hkey2 : key ≤ 12)
    (r : Rbuf) (hinv : rbufInv r) (hlist : rbufList r = keys)
    (ee : Nat → Nat) (tm : Nat) :
    (eeprom_playback tm (eeprom_store mode r ee key).2.1 key).2.2
      = keys.map (fun k => Event.dispatch mode k true) := by
  have hck : key2chunk key ≠ 0 := by interval_cases key <;> decide
  have hc : r.count = keys.length := by rw [← hlist, rbufList_length]
  have hchunk : (store_chunk mode r).1
      = mode :: (keys ++ List.replicate (40 - keys.length) 255) := by
    rw [store_chunk_spec mode r hinv (by omega), hlist, hc]
  have hread : eeprom_read_block (eeprom_store mode r ee key).2.1
      (key2chunk key) EEPROM_CHUNK_SIZE = (store_chunk mode r).1 := by
    have h := eeprom_read_update ee (store_chunk mode r).1 (key2chunk key)
    rw [store_chunk_length] at h
    simpa [eeprom_store] using h
  have hM : ¬ (mode < MODE_MIN ∨ MODE_MAX < mode) := by
    have e0 : MODE_MIN = 0 := rfl
    have e4 : MODE_MAX = 4 := rfl
    omega
  have hne : ∀ k ∈ keys, k ≠ 255 := by
    intro k hk
    have := hvalid k hk
    omega
  simp only [eeprom_playback]
  rw [if_neg hck, hread, hchunk]
  simp only [List.getD_cons_zero]
  rw [if_neg hM]
  simp only [List.drop_succ_cons, List.drop_zero]
  rw [replay_keys_no_sentinel mode keys _ hne, replay_keys_pad,
    List.append_nil]

/-- C2 witness: the round trip for keys [1, 2, 3] under mode 0 stored
to and played back from memory key 7. -/
theorem C2_store_playback_roundtrip_witness :
    (eeprom_playback 4 (eeprom_store 0 sampleRbuf (fun _ => 0) 7).2.1 7).2.2
      = [1, 2, 3].map (fun k => Event.dispatch 0 k true) :=
  C2_store_playback_roundtrip [1, 2, 3] (by decide) (by decide) 0 (by decide)
    7 (by decide) (by decide) sampleRbuf (by decide) (by decide)
    (fun _ => 0) 4

/-- C4: for every memory key (codes 1..12) whose stored chunk begins
with a byte outside the valid mode range MODE_MIN..MODE_MAX — in
particular the erase sentinel 0xFF — eeprom_playback returns without
playing any tone, without dispatching any key, with the live tone mode
unchanged and the EEPROM untouched: it aborts silently. -/
theorem C4_playback_invalid_mode (key : Nat) (h1 : 1 ≤ key) (h2 : key ≤ 12)
    (tm : Nat) (ee : Nat → Nat)
    (hbad : ee (key2chunk key) < MODE_MIN ∨ MODE_MAX < ee (key2chunk key)) :
    eeprom_playback tm ee key = (tm, ee, []) := by
  have hck : key2chunk key ≠ 0 := by interval_cases key <;> decide
  have hget : (eeprom_read_block ee (key2chunk key) EEPROM_CHUNK_SIZE).getD 0 0
      = ee (key2chunk key) := by
    rw [eeprom_read_block_getD ee (key2chunk key) EEPROM_CHUNK_SIZE 0
      (by decide)]
    simp
  simp only [eeprom_playback]
  rw [if_neg hck, if_pos (by rw [hget]; exact hbad)]

/-- C4 witness: playback of memory key 1 over an EEPROM that is all
0xFF (freshly erased) returns silently. -/
theorem C4_playback_invalid_mode_witness :
    eeprom_playback 0 (fun _ => 255) 1 = (0, (fun _ => (255 : Nat)), []) :=
  C4_playback_invalid_mode 1 (by decide) (by decide) 0 (fun _ => 255)
    (by decide)

/-- C5: for every key, after eeprom_playback returns the live tone mode
equals its value before the call (the chunk's mode only overrides it
during replay, through the tone_mode_temp save/restore), and
eeprom_playback performs no write to the EEPROM. -/
theorem C5_playback_frame (key tm : Nat) (ee : Nat → Nat) :
    (eeprom_playback tm ee key).1 = tm ∧
    (eeprom_playback tm ee key).2.1 = ee := by
  simp only [eeprom_playback]
  split
  · exact ⟨rfl, rfl⟩
  · split
    · exact ⟨rfl, rfl⟩
    · exact ⟨rfl, rfl⟩

/-- C6: at boot, a persisted startup mode byte outside MODE_MIN..MODE_MAX
makes the in-memory mode fall back to the default (MODE_MF) with a
distinct four-chirp sequence at 880 Hz; independently, a persisted
tone-length byte that is neither TONE_LENGTH_SLOW nor TONE_LENGTH_FAST
makes the in-memory length fall back to TONE_LENGTH_FAST with a
different four-chirp sequence at 1760 Hz; with header (0xFF, 0xFF) both
sequences play; the EEPROM is not rewritten and boot continues. -/
theorem C6_boot_header_validation (ee : Nat → Nat) :
    ((ee EEPROM_STARTUP_TONE_MODE < MODE_MIN ∨
        MODE_MAX < ee EEPROM_STARTUP_TONE_MODE) →
      (boot_read_settings ee).1 = MODE_MF ∧
      (boot_read_settings ee).2.2.2.take 4 = chirp4 880) ∧
    ((ee EEPROM_STARTUP_TONE_LENGTH ≠ TONE_LENGTH_SLOW ∧
        ee EEPROM_STARTUP_TONE_LENGTH ≠ TONE_LENGTH_FAST) →
      (boot_read_settings ee).2.1 = TONE_LENGTH_FAST) ∧
    (boot_read_settings ee).2.2.2
      = (if ee EEPROM_STARTUP_TONE_MODE < MODE_MIN ∨
            MODE_MAX < ee EEPROM_STARTUP_TONE_MODE
         then chirp4 880 else []) ++
        (if ee EEPROM_STARTUP_TONE_LENGTH ≠ TONE_LENGTH_SLOW ∧
            ee EEPROM_STARTUP_TONE_LENGTH ≠ TONE_LENGTH_FAST
         then chirp4 1760 else []) ∧
    ((ee EEPROM_STARTUP_TONE_MODE = 255 ∧
        ee EEPROM_STARTUP_TONE_LENGTH = 255) →
      (boot_read_settings ee).1 = MODE_MF ∧
      (boot_read_settings ee).2.1 = TONE_LENGTH_FAST ∧
      (boot_read_settings ee).2.2.2 = chirp4 880 ++ chirp4 1760) ∧
    (boot_read_settings ee).2.2.1 = ee := by
  refine ⟨?_, ?_, ?_, ?_, rfl⟩
  · intro h
    simp only [boot_read_settings, if_pos h]
    exact ⟨rfl, by simp [chirp4]⟩
  · intro h
    simp only [boot_read_settings, if_pos h]
  · by_cases h1 : ee EEPROM_STARTUP_TONE_MODE < MODE_MIN ∨
        MODE_MAX < ee EEPROM_STARTUP_TONE_MODE <;>
      by_cases h2 : ee EEPROM_STARTUP_TONE_LENGTH ≠ TONE_LENGTH_SLOW ∧
        ee EEPROM_STARTUP_TONE_LENGTH ≠ TONE_LENGTH_FAST <;>
      simp only [boot_read_settings, h1, h2, if_pos, if_neg,
        if_true, if_false, ite_true, ite_false] <;>
      simp [h1, h2]
  · rintro ⟨ha, hb⟩
    have h1 : ee EEPROM_STARTUP_TONE_MODE < MODE_MIN ∨
        MODE_MAX < ee EEPROM_STARTUP_TONE_MODE := by
      right; rw [ha]; decide
    have h2 : ee EEPROM_STARTUP_TONE_LENGTH ≠ TONE_LENGTH_SLOW ∧
        ee EEPROM_STARTUP_TONE_LENGTH ≠ TONE_LENGTH_FAST := by
      rw [hb]; exact ⟨by decide, by decide⟩
    simp only [boot_read_settings, if_pos h1, if_pos h2]
    exact ⟨rfl, trivial, trivial⟩

/-- C6 witness: booting on a freshly erased EEPROM (every byte 0xFF)
yields mode MODE_MF, length TONE_LENGTH_FAST, both chirp sequences, and
an unchanged EEPROM. -/
theorem C6_boot_header_validation_witness :
    (boot_read_settings (fun _ => 255)).1 = MODE_MF ∧
    (boot_read_settings (fun _ => 255)).2.1 = TONE_LENGTH_FAST ∧
    (boot_read_settings (fun _ => 255)).2.2.2 = chirp4 880 ++ chirp4 1760 :=
  (C6_boot_header_validation (fun _ => 255)).2.2.2.1 ⟨rfl, rfl⟩

set_option maxRecDepth 8000 in
/-- C7: for every accepted (twice-identical) reading, the key decoder
returns no key below the noise floor of 13; it classifies readings
through the 13 pairwise-disjoint voltage bands of the ordered table,
each band a contiguous interval mapping to one key code; any 8-bit
reading outside all bands yields no key; and with a stable reading the
sampling loop always accepts the first pair and returns the same key
code, whatever the retry fuel or sample position. -/
theorem C7_key_decoder :
    (∀ v, v < 13 → getkeyClassify v = KEY_NOTHING) ∧
    List.Pairwise bandsDisjoint keyBands ∧
    (∀ v, v < 256 → ∀ b ∈ keyBands, inBand v b → getkeyClassify v = b.2.2) ∧
    (∀ v, v < 256 → (∀ b ∈ keyBands, ¬ inBand v b) →
      getkeyClassify v = KEY_NOTHING) ∧
    (∀ v i fuel, getkey (fun _ => v) (fuel + 1) i
      = some (getkeyClassify v)) := by
  refine ⟨by decide, by decide, by decide, by decide, ?_⟩
  intro v i fuel
  simp [getkey]

/-- C7 witness: the reading 5 is under the noise floor, 128 lands in
the KEY_7 band, and the stable-reading loop returns that key at once. -/
theorem C7_key_decoder_witness :
    getkeyClassify 5 = KEY_NOTHING ∧
    getkeyClassify 128 = (120, 136, KEY_7).2.2 ∧
    getkey (fun _ => 128) 1 0 = some (getkeyClassify 128) :=
  ⟨C7_key_decoder.1 5 (by decide),
   C7_key_decoder.2.2.1 128 (by decide) (120, 136, KEY_7) (by decide)
     (by decide),
   C7_key_decoder.2.2.2.2 128 0 0⟩

end Bluebox
